import Mathlib

/-!
# Verification of the huggingface_hub token helper and task-parameter rewriter

Shallow embedding of `src/huggingface_hub/utils/_auth.py` and
`utils/generate_task_parameters.py`, together with proofs about the
claims on their behaviour.

Python strings are modelled as Lean `String`s; the handful of Python
string primitives used by the code (`str.replace`, `str.strip`,
`str.rstrip`, `str.lower`, `str.split("\n")`, `"\n".join`) are embedded
below as executable functions over `String.data` (lists of characters).
-/

/-! ## Python string primitives -/

/-- Characters stripped by Python's `str.strip()` with no argument
(ASCII whitespace). -/
def isPySpace (c : Char) : Bool :=
  c = ' ' || c = '\t' || c = '\n' || c = '\r' || c = '\x0b' || c = '\x0c'

/-- Python `s.strip()`: remove leading and trailing whitespace. -/
def pyStrip (s : String) : String :=
  String.mk (((s.data.dropWhile isPySpace).reverse.dropWhile isPySpace).reverse)

/-- Python `s.rstrip(cs)`: remove all trailing characters belonging to `cs`. -/
def pyRstripSet (s : String) (cs : List Char) : String :=
  String.mk ((s.data.reverse.dropWhile (fun c => cs.contains c)).reverse)

/-- Python `len(s) - len(s.lstrip())`: number of leading whitespace characters. -/
def leadingWsCount (s : String) : Nat :=
  (s.data.takeWhile isPySpace).length

/-- Python `s.lower()` (ASCII). -/
def strLower (s : String) : String :=
  String.mk (s.data.map Char.toLower)

/-- Membership of a string in a list of strings (Python `in` on a set of names,
modelled as a list whose only observable property is membership). -/
def strMem (x : String) : List String → Bool
  | [] => false
  | y :: rest => x = y || strMem x rest

/-- Does `pat` occur as a contiguous substring of the second list?
(Python `pat in s`.) -/
def containsSubChars (pat : List Char) : List Char → Bool
  | [] => pat.isPrefixOf []
  | c :: rest => pat.isPrefixOf (c :: rest) || containsSubChars pat rest

/-- Python `pat in s` on strings. -/
def strContains (pat s : String) : Bool :=
  containsSubChars pat.data s.data

/-- One step of Python `s.replace(pat, repl)` (leftmost, non-overlapping),
fuelled so that the recursion is structural.  Every step consumes at least
one character of the subject, so fuel `s.length` always suffices; the
embedding below always supplies exactly that much fuel.  `pat` is never
empty at any call site. -/
def replaceFuel (pat repl : List Char) : Nat → List Char → List Char
  | _, [] => []
  | 0, s => s
  | fuel + 1, c :: rest =>
    if !pat.isEmpty && pat.isPrefixOf (c :: rest) then
      repl ++ replaceFuel pat repl fuel (List.drop pat.length (c :: rest))
    else
      c :: replaceFuel pat repl fuel rest

/-- Python `s.replace(pat, repl)` for a non-empty `pat`. -/
def pyReplace (s pat repl : String) : String :=
  String.mk (replaceFuel pat.data repl.data s.data.length s.data)

/-- Python `s.split("\n")` on character lists. -/
def splitLinesChars : List Char → List (List Char)
  | [] => [[]]
  | c :: rest =>
    if c = '\n' then [] :: splitLinesChars rest
    else
      match splitLinesChars rest with
      | l :: ls => (c :: l) :: ls
      | [] => [[c]]

/-- Python `docstring.split("\n")`. -/
def splitLinesStr (s : String) : List String :=
  (splitLinesChars s.data).map String.mk

/-- Python `"\n".join(lines)`. -/
def joinLinesStr : List String → String
  | [] => ""
  | [l] => l
  | l :: ls => l ++ "\n" ++ joinLinesStr ls

/-- Python `next((i for i, x in enumerate(l) if p x), None)`. -/
def findLineIdx (p : String → Bool) : List String → Option Nat
  | [] => none
  | a :: rest => if p a then some 0 else (findLineIdx p rest).map (fun i => i + 1)

/-- Python `l[i:i] = xs` (insert a list of elements at index `i`). -/
def insertListAt (l : List String) (i : Nat) (xs : List String) : List String :=
  l.take i ++ xs ++ l.drop i

/-! ## `_auth.py`: token normalization and resolution -/

/-- `_clean_token` from `_auth.py`:
`token.replace("\r", "").replace("\n", "").strip() or None`,
with `None` mapped to `None`. -/
def _clean_token (token : Option String) : Option String :=
  match token with
  | none => none
  | some t =>
    let cleaned := pyStrip (pyReplace (pyReplace t "\r" "") "\n" "")
    if cleaned = "" then none else some cleaned

/-- Python `a or b` on `Optional[str]` values: `None` and `""` are falsy. -/
def pyOrStr : Option String → Option String → Option String
  | some s, b => if s = "" then b else some s
  | none, b => b

/-- The ambient machine state observed by `get_token`:
the outcome of the Google-Colab vault path, the two environment
variables, and the token-file contents (`none` = `FileNotFoundError`). -/
structure AuthEnv where
  colab_secret : Option String
  hf_token_env : Option String
  hub_token_env : Option String
  token_file : Option String
deriving DecidableEq

/-- `_get_token_from_environment`:
`_clean_token(os.environ.get("HF_TOKEN") or os.environ.get("HUGGING_FACE_HUB_TOKEN"))`. -/
def _get_token_from_environment (e : AuthEnv) : Option String :=
  _clean_token (pyOrStr e.hf_token_env e.hub_token_env)

/-- `_get_token_from_file`: read the token file and clean it;
a missing file (`FileNotFoundError`) yields `None`. -/
def _get_token_from_file (e : AuthEnv) : Option String :=
  match e.token_file with
  | some contents => _clean_token (some contents)
  | none => none

/-- `get_token`:
`_get_token_from_google_colab() or _get_token_from_environment() or _get_token_from_file()`. -/
def get_token (e : AuthEnv) : Option String :=
  pyOrStr (pyOrStr e.colab_secret (_get_token_from_environment e)) (_get_token_from_file e)

/-- First `some` in a list of candidates. -/
def firstSome : List (Option String) → Option String
  | [] => none
  | some s :: _ => some s
  | none :: rest => firstSome rest

/-- Modelled from the spec's words (for comparison with `get_token`):
"tries the vault first, then the primary environment variable, then the
deprecated alias variable, then the token file, returning the first
non-absent candidate", where a candidate is absent when it normalizes to
nothing. -/
def spec_priority_resolution (e : AuthEnv) : Option String :=
  firstSome
    [_clean_token e.colab_secret, _clean_token e.hf_token_env,
     _clean_token e.hub_token_env, _clean_token e.token_file]

/-! ## `_auth.py`: profile store -/

/-- Outcome of `configparser.ConfigParser.read` on the profile store:
either the parsed sections (each a name with its key/value options) or a
`configparser.Error` subclass raised during parsing.  `configparser`
itself is an external library; only its observable outcome is modelled. -/
inductive INIReadResult where
  | parsed (sections : List (String × List (String × String)))
  | parseError (msg : String)
deriving DecidableEq

/-- `config.get(section, key)`: first matching option, if any. -/
def config_get (opts : List (String × String)) (key : String) : Option String :=
  match opts with
  | [] => none
  | (k, v) :: rest => if k = key then some v else config_get rest key

/-- The dict comprehension
`{profile: config.get(profile, "hf_token") for profile in config.sections()}`;
a section without an `hf_token` key raises `configparser.NoOptionError`
(a `configparser.Error`), modelled as `none`. -/
def sections_to_profiles :
    List (String × List (String × String)) → Option (List (String × String))
  | [] => some []
  | (name, opts) :: rest =>
    match config_get opts "hf_token" with
    | none => none
    | some tok =>
      match sections_to_profiles rest with
      | none => none
      | some ps => some ((name, tok) :: ps)

/-- `_get_profiles`: both the `config.read` call and the comprehension are
inside `try ... except configparser.Error`, which logs and yields `{}`. -/
def _get_profiles (r : INIReadResult) : List (String × String) :=
  match r with
  | .parseError _ => []
  | .parsed sections =>
    match sections_to_profiles sections with
    | none => []
    | some profiles => profiles

/-! ## `_auth.py`: Google-Colab vault lookup -/

/-- Outcome of `google.colab.userdata.get("HF_TOKEN")` when actually
queried: a token, or one of the three distinguished error classes. -/
inductive VaultOutcome where
  | token (s : String)
  | notebookAccessError
  | secretNotFoundError
  | colabError (msg : String)
deriving DecidableEq

/-- The per-process environment of `_get_token_from_google_colab`:
runtime checks, importability of `google.colab`, and the vault outcome
that a query would observe.  All are fixed for the process lifetime. -/
structure ColabEnv where
  is_google_colab : Bool
  is_colab_enterprise : Bool
  can_import_userdata : Bool
  vault : VaultOutcome
deriving DecidableEq

/-- The module-level mutable state: `_IS_GOOGLE_COLAB_CHECKED` and
`_GOOGLE_COLAB_SECRET`. -/
structure ColabState where
  checked : Bool
  secret : Option String
deriving DecidableEq

/-- What the `try:`/`except` ladder stores for each vault outcome:
a cleaned token on success, `None` (after a warning) on each error. -/
def vault_result (v : VaultOutcome) : Option String :=
  match v with
  | .token s => _clean_token (some s)
  | .notebookAccessError => none
  | .secretNotFoundError => none
  | .colabError _ => none

/-- One call to `_get_token_from_google_colab`, returning
(result, new state, whether the vault was actually queried).
The body runs under `_GOOGLE_COLAB_SECRET_LOCK`, so each call is atomic. -/
def _get_token_from_google_colab (env : ColabEnv) (st : ColabState) :
    Option String × ColabState × Bool :=
  if !env.is_google_colab || env.is_colab_enterprise then (none, st, false)
  else if st.checked then (st.secret, st, false)
  else if !env.can_import_userdata then (none, st, false)
  else
    let sec := vault_result env.vault
    (sec, ⟨true, sec⟩, true)

/-- A sequence of `n` calls to `_get_token_from_google_colab`, threading
the module state and counting how many of them queried the vault. -/
def run_colab_calls (env : ColabEnv) : Nat → ColabState → ColabState × Nat
  | 0, st => (st, 0)
  | n + 1, st =>
    let r := _get_token_from_google_colab env st
    let rest := run_colab_calls env n r.2.1
    (rest.1, (if r.2.2 then 1 else 0) + rest.2)

/-! ## `generate_task_parameters.py`: syntax-tree model

A small model of the libcst nodes the script inspects.  A
`SimpleStatementLine` holds a list of small statements; the script only
distinguishes annotated assignments to a plain name (dataclass fields),
expression statements whose value is a string literal (docstrings,
stored here by their evaluated value), import statements, and anything
else.  Compound statements (`if`, `for`, nested defs, ...) are opaque. -/

inductive SmallStmt where
  | annAssignName (target : String) (ty : String)
  | exprStr (s : String)
  | importPlain
  | importFrom
  | otherSmall
deriving DecidableEq

inductive Stmt where
  | simple (stmts : List SmallStmt)
  | compound
deriving DecidableEq

/-- A dataclass definition in the parameters module. -/
structure ClassDef where
  name : String
  body : List Stmt
deriving DecidableEq

/-- A function parameter: name, rendered type, rendered default. -/
structure Param where
  name : String
  ty : Option String := none
  dflt : Option String := none
deriving DecidableEq

/-- `cst.Parameters`, restricted to the two lists the script reads. -/
structure Parameters where
  params : List Param
  kwonly_params : List Param
deriving DecidableEq

/-- A method of the inference client.  The visitors traverse every
`FunctionDef` in the module regardless of nesting, so the client module
is modelled as the flat list of its function definitions. -/
structure FunctionDef where
  name : String
  params : Parameters
  body : List Stmt
deriving DecidableEq

/-- The `{"type": ..., "docstring": ...}` record attached to each field. -/
structure ParamInfo where
  type_ : String
  docstring : String
deriving DecidableEq

/-- A Python `dict` with string keys, in insertion order. -/
abbrev FieldDict := List (String × ParamInfo)

/-- Python `d[k] = v`: update in place if the key exists (keeping its
position), otherwise append. -/
def dictInsert (d : FieldDict) (k : String) (v : ParamInfo) : FieldDict :=
  if strMem k (d.map Prod.fst) then
    d.map (fun kv => if kv.1 = k then (k, v) else kv)
  else
    d ++ [(k, v)]

/-! ### DataclassFieldCollector -/

/-- The inner loop of `_extract_docstring`: first `Expr` statement whose
value is a `SimpleString`. -/
def firstSimpleString : List SmallStmt → Option String
  | [] => none
  | .exprStr s :: _ => some s
  | _ :: rest => firstSimpleString rest

/-- `DataclassFieldCollector._extract_docstring`: the docstring following
a field is the string literal in the immediately following statement,
if that statement is a `SimpleStatementLine` containing one; else `""`. -/
def _extract_docstring (body_statements : List Stmt) (field_index : Nat) : String :=
  match body_statements.drop (field_index + 1) with
  | .simple stmts :: _ =>
    match firstSimpleString stmts with
    | some s => pyStrip s
    | none => ""
  | _ => ""

/-- The enumerated loop of `DataclassFieldCollector.visit_ClassDef` over
one class body, threading the `parameters` dict. -/
def collect_fields_go (class_body : List Stmt) : List Stmt → Nat → FieldDict → FieldDict
  | [], _, d => d
  | st :: rest, idx, d =>
    let d' :=
      match st with
      | .simple stmts =>
        stmts.foldl
          (fun acc s =>
            match s with
            | .annAssignName n ty =>
              dictInsert acc n ⟨ty, _extract_docstring class_body idx⟩
            | _ => acc)
          d
      | .compound => d
    collect_fields_go class_body rest (idx + 1) d'

/-- `DataclassFieldCollector` run over the parameters module: every class
definition whose name matches contributes its fields, in order. -/
def DataclassFieldCollector_collect (dataclass_name : String)
    (parameters_module : List ClassDef) : FieldDict :=
  parameters_module.foldl
    (fun d c => if c.name = dataclass_name then collect_fields_go c.body c.body 0 d else d)
    []

/-! ### ArgumentsCollector -/

/-- The names contributed by one matching `FunctionDef`: all positional
and keyword-only parameter names except `"self"`. -/
def argNames (f : FunctionDef) : List String :=
  ((f.params.params ++ f.params.kwonly_params).map Param.name).filter
    (fun n => n != "self")

/-- `ArgumentsCollector` run over the client module: every matching
`FunctionDef` updates the same set (modelled as a list whose only
observable property is membership). -/
def ArgumentsCollector_collect (method_name : String)
    (inference_client_module : List FunctionDef) : List String :=
  inference_client_module.foldl
    (fun s f => if f.name = method_name then s ++ argNames f else s) []

/-! ### check_missing_parameters -/

/-- `check_missing_parameters`: collect the dataclass fields and the
method's existing argument names, then keep the fields whose names are
not among the existing arguments
(`{k: v for k, v in parameters.items() if k not in existing_args}`). -/
def check_missing_parameters (inference_client_module : List FunctionDef)
    (parameters_module : List ClassDef)
    (method_name : String) (parameter_type_name : String) : FieldDict :=
  let parameters := DataclassFieldCollector_collect parameter_type_name parameters_module
  let existing_args := ArgumentsCollector_collect method_name inference_client_module
  parameters.filter (fun kv => !(strMem kv.1 existing_args))

/-! ### AddParameters -/

/-- `AddParameters._update_parameters`: append one keyword-only parameter
(with the field's type and default `None`) per missing field that is not
already among the parameter names (`"self"` included this time). -/
def AddParameters_update_parameters (missing_params : FieldDict)
    (params : Parameters) : Parameters :=
  let existing_args := (params.params ++ params.kwonly_params).map Param.name
  let new_kwonly_params :=
    missing_params.foldl
      (fun acc kv =>
        if strMem kv.1 existing_args then acc
        else acc ++ [{ name := kv.1, ty := some kv.2.type_, dflt := some "None" }])
      params.kwonly_params
  { params with kwonly_params := new_kwonly_params }

/-- The terminal docstring section headers. -/
def terminal_headers : List String := ["returns:", "raises:", "examples:", "example:"]

/-- Is this line (stripped, lowercased) one of the terminal headers? -/
def is_terminal_header (line : String) : Bool :=
  strMem (strLower (pyStrip line)) terminal_headers

/-- The scan `next((i for i in range(args_index + 1, len) if lines[i].strip() == ""
and i + 1 < len and lines[i + 1] is a terminal header), len)`, walking the
suffix of the lines starting at index `i`. -/
def findBlankBeforeHeader : List String → Nat → Option Nat
  | a :: b :: rest, i =>
    if pyStrip a = "" && is_terminal_header b then some i
    else findBlankBeforeHeader (b :: rest) (i + 1)
  | _, _ => none

/-- One parameter-doc block, the f-string
`f"{indentation}{param_name} (\`{param_type_str}\`, {optional_str}):\n{indentation}    {param_info['docstring'] or ''}"`
with `param_type_str = type.replace("Optional[", "").rstrip("]")` and
`optional_str = "*optional*" if "Optional[" in type else ""`. -/
def render_param_doc (indentation : String) (param_name : String)
    (param_info : ParamInfo) : String :=
  indentation ++ param_name ++ " (`"
    ++ pyRstripSet (pyReplace param_info.type_ "Optional[" "") [']'] ++ "`, "
    ++ (if strContains "Optional[" param_info.type_ then "*optional*" else "")
    ++ "):\n" ++ indentation ++ "    " ++ param_info.docstring

/-- The `' ' * (len(line) - len(line.lstrip())) + "    "` indentation of
the `Args:` line. -/
def indentationOf (lines : List String) (args_index : Nat) : String :=
  String.mk (List.replicate (leadingWsCount (lines.getD args_index "")) ' ') ++ "    "

/-- The parameter-doc blocks, one per missing field, in dict order. -/
def param_docs (missing_params : FieldDict) (indentation : String) : List String :=
  missing_params.map (fun kv => render_param_doc indentation kv.1 kv.2)

/-- `AddParameters._update_docstring_content`. -/
def _update_docstring_content (missing_params : FieldDict) (docstring : String) : String :=
  let docstring_lines := splitLinesStr docstring
  match findLineIdx (fun line => strLower (pyStrip line) = "args:") docstring_lines with
  | none =>
    let insertion_index :=
      (findLineIdx is_terminal_header docstring_lines).getD docstring_lines.length
    let lines2 := insertListAt docstring_lines insertion_index ["Args:"]
    joinLinesStr
      (insertListAt lines2 (insertion_index + 1)
        (param_docs missing_params (indentationOf lines2 insertion_index)))
  | some args_index =>
    let insertion_index :=
      (findBlankBeforeHeader (docstring_lines.drop (args_index + 1)) (args_index + 1)).getD
        docstring_lines.length
    joinLinesStr
      (insertListAt docstring_lines insertion_index
        (param_docs missing_params (indentationOf docstring_lines args_index)))

/-- `AddParameters._update_docstring`: only a body whose first statement
is a `SimpleStatementLine` starting with a string-literal expression is
touched; the rewritten first line holds exactly the new docstring. -/
def AddParameters_update_docstring (missing_params : FieldDict)
    (body : List Stmt) : List Stmt :=
  match body with
  | .simple (.exprStr s :: _) :: tail =>
    .simple [.exprStr (_update_docstring_content missing_params s)] :: tail
  | _ => body

/-- Does the body begin with a string-literal docstring statement? -/
def begins_with_docstring : List Stmt → Bool
  | .simple (.exprStr _ :: _) :: _ => true
  | _ => false

/-- `AddParameters.leave_FunctionDef`: on a name match, update the
parameters and the docstring. -/
def AddParameters_leave_FunctionDef (method_name : String)
    (missing_params : FieldDict) (f : FunctionDef) : FunctionDef :=
  if f.name = method_name then
    { f with
      params := AddParameters_update_parameters missing_params f.params,
      body := AddParameters_update_docstring missing_params f.body }
  else f

/-- The `AddParameters` transformer applied to the whole client module. -/
def applyAddParameters (method_name : String) (missing_params : FieldDict)
    (inference_client_module : List FunctionDef) : List FunctionDef :=
  inference_client_module.map (AddParameters_leave_FunctionDef method_name missing_params)

/-! ### AddImports -/

/-- Is a module-level statement a `SimpleStatementLine` whose first small
statement is an `Import` or `ImportFrom`?  (libcst guarantees the small
statement list of a `SimpleStatementLine` is non-empty.) -/
def stmt_is_import_line : Stmt → Bool
  | .simple (.importPlain :: _) => true
  | .simple (.importFrom :: _) => true
  | _ => false

/-- The loop of `AddImports.leave_Module`: index of the first statement
that is not an import line; `insertion_index` keeps its initial value `0`
when the loop never breaks. -/
def find_first_non_import : List Stmt → Nat → Option Nat
  | [], _ => none
  | s :: rest, i =>
    if stmt_is_import_line s then find_first_non_import rest (i + 1) else some i

/-- `AddImports.leave_Module` (first application; the `added` flag only
guards against a second visit of the same transformer instance). -/
def AddImports_leave_Module (imports_to_add : List Stmt) (body : List Stmt) : List Stmt :=
  let insertion_index := (find_first_non_import body 0).getD 0
  body.take insertion_index ++ imports_to_add ++ body.drop insertion_index

/-! ### Type-name extraction (`_collect_type_names_from_annotation`) -/

/-- `{d for d in dir(builtins) if isinstance(getattr(builtins, d), type)}`:
the names bound in CPython's `builtins` module whose values are types
(the built-in types and the exception hierarchy). -/
def builtin_types : List String :=
  ["ArithmeticError", "AssertionError", "AttributeError", "BaseException",
   "BlockingIOError", "BrokenPipeError", "BufferError", "BytesWarning",
   "ChildProcessError", "ConnectionAbortedError", "ConnectionError",
   "ConnectionRefusedError", "ConnectionResetError", "DeprecationWarning",
   "EOFError", "EncodingWarning", "EnvironmentError", "Exception",
   "FileExistsError", "FileNotFoundError", "FloatingPointError",
   "FutureWarning", "GeneratorExit", "IOError", "ImportError",
   "ImportWarning", "IndentationError", "IndexError", "InterruptedError",
   "IsADirectoryError", "KeyError", "KeyboardInterrupt", "LookupError",
   "MemoryError", "ModuleNotFoundError", "NameError", "NotADirectoryError",
   "NotImplementedError", "OSError", "OverflowError",
   "PendingDeprecationWarning", "PermissionError", "ProcessLookupError",
   "RecursionError", "ReferenceError", "ResourceWarning", "RuntimeError",
   "RuntimeWarning", "StopAsyncIteration", "StopIteration", "SyntaxError",
   "SyntaxWarning", "SystemError", "SystemExit", "TabError", "TimeoutError",
   "TypeError", "UnboundLocalError", "UnicodeDecodeError",
   "UnicodeEncodeError", "UnicodeError", "UnicodeTranslateError",
   "UnicodeWarning", "UserWarning", "ValueError", "Warning",
   "ZeroDivisionError", "bool", "bytearray", "bytes", "classmethod",
   "complex", "dict", "enumerate", "filter", "float", "frozenset", "int",
   "list", "map", "memoryview", "object", "property", "range", "reversed",
   "set", "slice", "staticmethod", "str", "super", "tuple", "type", "zip"]

/-- A `\w` character: word characters as matched by `re` on these strings. -/
def isWordChar (c : Char) : Bool :=
  c.isAlpha || c.isDigit || c = '_'

/-- `re.findall(r"\w+|'[^']+'|\"[^\"]+\"", s)`, fuelled so the recursion is
structural; every step consumes at least one character, so fuel
`s.length` suffices and is always supplied. -/
def findTokensFuel : Nat → List Char → List String
  | _, [] => []
  | 0, _ => []
  | fuel + 1, c :: rest =>
    if isWordChar c then
      String.mk ((c :: rest).takeWhile isWordChar)
        :: findTokensFuel fuel ((c :: rest).dropWhile isWordChar)
    else if c.toNat = 39 || c.toNat = 34 then
      -- a single- or double-quoted literal: needs at least one character
      -- before the next matching quote; otherwise no match starts here
      match rest.takeWhile (fun d => d.toNat ≠ c.toNat),
            rest.dropWhile (fun d => d.toNat ≠ c.toNat) with
      | inside, _ :: after =>
        if inside.isEmpty then findTokensFuel fuel rest
        else String.mk (c :: inside ++ [c]) :: findTokensFuel fuel after
      | _, [] => findTokensFuel fuel rest
    else
      findTokensFuel fuel rest

/-- Python `t.strip("\"'")`: drop leading and trailing quote characters. -/
def stripQuotes (t : String) : String :=
  let isQuote : Char → Bool := fun c => c.toNat = 39 || c.toNat = 34
  String.mk (((t.data.dropWhile isQuote).reverse.dropWhile isQuote).reverse)

/-- Python set insertion (membership-preserving, first-insertion order). -/
def setInsert (s : List String) (x : String) : List String :=
  if strMem x s then s else s ++ [x]

/-- `_collect_type_names_from_annotation` (named `_collect_type_names`
here): drop spaces, tokenize, strip quotes, exclude built-in type names,
and collect the results as a set. -/
def _collect_type_names (type_str : String) : List String :=
  let type_string := type_str.data.filter (fun c => c ≠ ' ')
  let types := findTokensFuel type_string.length type_string
  types.foldl
    (fun acc t =>
      if strMem (stripQuotes t) builtin_types then acc else setInsert acc (stripQuotes t))
    []

/-! ## Helper lemmas -/

theorem strMem_iff (x : String) (l : List String) : strMem x l = true ↔ x ∈ l := by
  induction l with
  | nil => simp [strMem]
  | cons y rest ih =>
    simp only [strMem, Bool.or_eq_true, decide_eq_true_eq, ih, List.mem_cons]

theorem str_append_assoc (a b c : String) : a ++ b ++ c = a ++ (b ++ c) := by
  cases a with | mk la =>
  cases b with | mk lb =>
  cases c with | mk lc =>
  show String.mk (la ++ lb ++ lc) = String.mk (la ++ (lb ++ lc))
  rw [List.append_assoc]

theorem clean_token_some_ne (o : Option String) (s : String)
    (h : _clean_token o = some s) : s ≠ "" := by
  cases o with
  | none => simp [_clean_token] at h
  | some t =>
    simp only [_clean_token] at h
    split at h
    · exact absurd h (by simp)
    · rename_i hne
      cases h
      exact hne

theorem pyOrStr_clean_none {o : Option String} (b : Option String)
    (h : _clean_token o = none) : pyOrStr (_clean_token o) b = b := by
  rw [h]; rfl

theorem pyOrStr_clean_some {o : Option String} {s : String} (b : Option String)
    (h : _clean_token o = some s) : pyOrStr (_clean_token o) b = some s := by
  rw [h]; simp [pyOrStr, clean_token_some_ne o s h]

theorem get_token_from_file_eq (e : AuthEnv) :
    _get_token_from_file e = _clean_token e.token_file := by
  cases h : e.token_file <;> simp [_get_token_from_file, _clean_token, h]

theorem map_fst_filter_key {β : Type} (p : String → Bool) :
    ∀ l : List (String × β),
      (l.filter (fun kv => p kv.1)).map Prod.fst = (l.map Prod.fst).filter p
  | [] => rfl
  | kv :: rest => by
    cases h : p kv.1 <;>
      simp [List.filter_cons, h, map_fst_filter_key p rest]

theorem foldl_cond_append {α β : Type} (C : α → Bool) (g : α → β) :
    ∀ (l : List α) (acc : List β),
      l.foldl (fun acc kv => if C kv then acc else acc ++ [g kv]) acc
        = acc ++ (l.filter (fun kv => !C kv)).map g
  | [], acc => by simp
  | a :: rest, acc => by
    cases h : C a <;>
      simp [List.foldl_cons, h, List.filter_cons, foldl_cond_append C g rest,
        List.append_assoc]

theorem mem_arguments_collector (method_name x : String) :
    ∀ (mod : List FunctionDef) (init : List String),
      x ∈ mod.foldl (fun s f => if f.name = method_name then s ++ argNames f else s) init
        ↔ x ∈ init ∨ ∃ f, f ∈ mod ∧ f.name = method_name ∧ x ∈ argNames f
  | [], init => by simp
  | f :: rest, init => by
    simp only [List.foldl_cons]
    by_cases h : f.name = method_name
    · rw [if_pos h, mem_arguments_collector method_name x rest (init ++ argNames f)]
      constructor
      · rintro (hx | ⟨f', hf', hn, hx⟩)
        · rcases List.mem_append.mp hx with hx | hx
          · exact Or.inl hx
          · exact Or.inr ⟨f, by simp, h, hx⟩
        · exact Or.inr ⟨f', by simp [hf'], hn, hx⟩
      · rintro (hx | ⟨f', hf', hn, hx⟩)
        · exact Or.inl (List.mem_append.mpr (Or.inl hx))
        · rcases List.mem_cons.mp hf' with rfl | hf'
          · exact Or.inl (List.mem_append.mpr (Or.inr hx))
          · exact Or.inr ⟨f', hf', hn, hx⟩
    · rw [if_neg h, mem_arguments_collector method_name x rest init]
      constructor
      · rintro (hx | ⟨f', hf', hn, hx⟩)
        · exact Or.inl hx
        · exact Or.inr ⟨f', by simp [hf'], hn, hx⟩
      · rintro (hx | ⟨f', hf', hn, hx⟩)
        · exact Or.inl hx
        · rcases List.mem_cons.mp hf' with rfl | hf'
          · exact absurd hn h
          · exact Or.inr ⟨f', hf', hn, hx⟩

theorem strMem_args_iff (method_name x : String) (mod : List FunctionDef) :
    strMem x (ArgumentsCollector_collect method_name mod) = true
      ↔ ∃ f, f ∈ mod ∧ f.name = method_name ∧ x ∈ argNames f := by
  rw [strMem_iff, ArgumentsCollector_collect, mem_arguments_collector]
  simp

theorem mem_argNames_iff (f : FunctionDef) (x : String) :
    x ∈ argNames f
      ↔ x ∈ (f.params.params ++ f.params.kwonly_params).map Param.name ∧ x ≠ "self" := by
  simp [argNames, List.mem_filter]
  exact or_and_right.symm

theorem update_parameters_kwonly (missing_params : FieldDict) (ps : Parameters) :
    (AddParameters_update_parameters missing_params ps).kwonly_params
      = ps.kwonly_params
        ++ (missing_params.filter (fun kv =>
              !(strMem kv.1 ((ps.params ++ ps.kwonly_params).map Param.name)))).map
             (fun kv => ⟨kv.1, some kv.2.type_, some "None"⟩) := by
  simp only [AddParameters_update_parameters]
  exact foldl_cond_append _ _ missing_params ps.kwonly_params

theorem update_parameters_params (missing_params : FieldDict) (ps : Parameters) :
    (AddParameters_update_parameters missing_params ps).params = ps.params := rfl

theorem find_first_non_import_all_imports :
    ∀ (l : List Stmt) (i : Nat), (∀ s ∈ l, stmt_is_import_line s = true) →
      find_first_non_import l i = none
  | [], _, _ => rfl
  | s :: rest, i, h => by
    have hs := h s (by simp)
    simp [find_first_non_import, hs]
    exact find_first_non_import_all_imports rest (i + 1) (fun u hu => h u (by simp [hu]))

theorem find_first_non_import_split :
    ∀ (pre : List Stmt) (s : Stmt) (post : List Stmt) (i : Nat),
      (∀ u ∈ pre, stmt_is_import_line u = true) → stmt_is_import_line s = false →
      find_first_non_import (pre ++ s :: post) i = some (pre.length + i)
  | [], s, post, i, _, hs => by simp [find_first_non_import, hs]
  | u :: pre, s, post, i, hpre, hs => by
    have hu := hpre u (by simp)
    have ih := find_first_non_import_split pre s post (i + 1)
      (fun v hv => hpre v (by simp [hv])) hs
    show find_first_non_import (u :: (pre ++ s :: post)) i = some ((u :: pre).length + i)
    simp only [find_first_non_import, hu, if_true]
    rw [ih]
    congr 1
    simp only [List.length_cons]
    omega

/-! ## Claims -/

/-- C7: token normalization strips carriage returns, newlines and
surrounding whitespace, and maps an input that is empty after
normalization (or a `None` input) to `None`:
`Clean(" abc\n") = "abc"`, `Clean("\r\n") = None`, `Clean(None) = None`
(and, for the surrounding-whitespace part, `Clean("  tok  ") = "tok"`,
`Clean("a\rb\nc") = "abc"`). -/
theorem clean_token_normalizes :
    _clean_token (some " abc\n") = some "abc"
    ∧ _clean_token (some "\r\n") = none
    ∧ _clean_token none = none
    ∧ _clean_token (some "  tok  ") = some "tok"
    ∧ _clean_token (some "a\rb\nc") = some "abc" := by
  refine ⟨by decide, by decide, rfl, by decide, by decide⟩

/-- C8: for every profile-store file whose contents are unparseable as
INI (that is, `configparser` raises an error while reading it),
`_get_profiles` returns the empty mapping; the embedding is a total
function, reflecting that the `except configparser.Error` handler keeps
any such error from escaping. -/
theorem get_profiles_parse_error_empty (msg : String) :
    _get_profiles (INIReadResult.parseError msg) = [] := rfl

/-- C3 counterexample: the claim says `ExtractTypeNames("Optional[str]")`
is empty and `ExtractTypeNames("Optional[ChatMessage]")` is exactly
`{"ChatMessage"}`; but `"Optional"` is not a name of a built-in type, so
the code keeps it in both results. -/
theorem collect_type_names_counterexample :
    "Optional" ∈ _collect_type_names "Optional[str]"
    ∧ "Optional" ∈ _collect_type_names "Optional[ChatMessage]" := by
  decide

/-- C3 amended: type-name extraction excludes the names of built-in
types (`str`, `int`, ...) but keeps every other identifier token,
including `"Optional"` itself:
`ExtractTypeNames("Optional[str]") = {"Optional"}` and
`ExtractTypeNames("Optional[ChatMessage]") = {"Optional", "ChatMessage"}`. -/
theorem collect_type_names_amended :
    (∀ x, x ∈ _collect_type_names "Optional[str]" ↔ x = "Optional")
    ∧ (∀ x, x ∈ _collect_type_names "Optional[ChatMessage]"
        ↔ (x = "Optional" ∨ x = "ChatMessage")) := by
  have h1 : _collect_type_names "Optional[str]" = ["Optional"] := by decide
  have h2 : _collect_type_names "Optional[ChatMessage]" = ["Optional", "ChatMessage"] := by
    decide
  exact ⟨fun x => by simp [h1], fun x => by simp [h2]⟩

/-- C4 counterexample: for an all-imports module the claim says the new
statements are appended at the end; the code leaves `insertion_index` at
its initial value `0` and therefore prepends them. -/
theorem add_imports_all_imports_counterexample :
    AddImports_leave_Module [Stmt.simple [SmallStmt.importFrom]]
        [Stmt.simple [SmallStmt.importPlain]]
      = [Stmt.simple [SmallStmt.importFrom], Stmt.simple [SmallStmt.importPlain]]
    ∧ AddImports_leave_Module [Stmt.simple [SmallStmt.importFrom]]
        [Stmt.simple [SmallStmt.importPlain]]
      ≠ [Stmt.simple [SmallStmt.importPlain]] ++ [Stmt.simple [SmallStmt.importFrom]] := by
  decide

/-- C4 amended: the import-insertion transform places the new statements
immediately before the first top-level statement that is neither a
plain import nor an import-from; if every top-level statement of the
module is an import, the new statements are inserted at the beginning
of the module (not appended at the end). -/
theorem add_imports_insertion (imports_to_add body : List Stmt) :
    ((∀ s ∈ body, stmt_is_import_line s = true) →
        AddImports_leave_Module imports_to_add body = imports_to_add ++ body)
    ∧ (∀ pre s post, body = pre ++ s :: post →
        (∀ u ∈ pre, stmt_is_import_line u = true) →
        stmt_is_import_line s = false →
        AddImports_leave_Module imports_to_add body
          = pre ++ imports_to_add ++ (s :: post)) := by
  constructor
  · intro hall
    rw [AddImports_leave_Module, find_first_non_import_all_imports body 0 hall]
    simp
  · rintro pre s post rfl hpre hs
    rw [AddImports_leave_Module, find_first_non_import_split pre s post 0 hpre hs]
    simp only [Nat.add_zero, Option.getD_some]
    rw [List.take_left, List.drop_left]

/-- C4 witness: inserting one import-from line into a module whose first
statement is an import and whose second is a compound statement places
the new line between them. -/
theorem add_imports_insertion_witness :
    AddImports_leave_Module [Stmt.simple [SmallStmt.importFrom]]
        [Stmt.simple [SmallStmt.importPlain], Stmt.compound]
      = [Stmt.simple [SmallStmt.importPlain]] ++ [Stmt.simple [SmallStmt.importFrom]]
          ++ (Stmt.compound :: []) :=
  (add_imports_insertion [Stmt.simple [SmallStmt.importFrom]]
      [Stmt.simple [SmallStmt.importPlain], Stmt.compound]).2
    [Stmt.simple [SmallStmt.importPlain]] Stmt.compound [] rfl (by decide) (by decide)

/-- C1: `check_missing_parameters` returns exactly those fields of the
declaration (as collected by `DataclassFieldCollector`) whose names are
not in the callable's existing-argument set, and the returned mapping is
a sublist of the declaration's field mapping, hence preserves the
original field declaration order. -/
theorem check_missing_parameters_exact (client : List FunctionDef)
    (pm : List ClassDef) (m t : String) :
    (∀ kv, kv ∈ check_missing_parameters client pm m t
        ↔ kv ∈ DataclassFieldCollector_collect t pm
            ∧ strMem kv.1 (ArgumentsCollector_collect m client) = false)
    ∧ List.Sublist (check_missing_parameters client pm m t)
        (DataclassFieldCollector_collect t pm)
    ∧ (check_missing_parameters client pm m t).map Prod.fst
        = ((DataclassFieldCollector_collect t pm).map Prod.fst).filter
            (fun k => !(strMem k (ArgumentsCollector_collect m client))) := by
  refine ⟨?_, ?_, ?_⟩
  · intro kv
    simp only [check_missing_parameters, List.mem_filter, Bool.not_eq_true']
  · exact List.filter_sublist _
  · simp only [check_missing_parameters]
    exact map_fst_filter_key
      (fun k => !(strMem k (ArgumentsCollector_collect m client)))
      (DataclassFieldCollector_collect t pm)

theorem leave_FunctionDef_name (m : String) (mi : FieldDict) (f : FunctionDef) :
    (AddParameters_leave_FunctionDef m mi f).name = f.name := by
  unfold AddParameters_leave_FunctionDef
  split <;> rfl

theorem argNames_leave (m : String) (mi : FieldDict) (f : FunctionDef) (x : String) :
    x ∈ argNames (AddParameters_leave_FunctionDef m mi f)
      ↔ x ∈ argNames f
        ∨ (f.name = m ∧ x ≠ "self" ∧ ∃ kv ∈ mi, kv.1 = x
            ∧ strMem x ((f.params.params ++ f.params.kwonly_params).map Param.name)
                = false) := by
  by_cases h : f.name = m
  · rw [AddParameters_leave_FunctionDef, if_pos h]
    rw [mem_argNames_iff, mem_argNames_iff]
    simp only [update_parameters_params, update_parameters_kwonly, List.map_append,
      List.mem_append, List.map_map, List.mem_map, Function.comp, List.mem_filter,
      Bool.not_eq_true', h, true_and]
    constructor
    · rintro ⟨(hx | hx | ⟨kv, ⟨hkv, hstr⟩, hname⟩), hs⟩
      · exact Or.inl ⟨Or.inl hx, hs⟩
      · exact Or.inl ⟨Or.inr hx, hs⟩
      · exact Or.inr ⟨hs, kv, hkv, hname, hname ▸ hstr⟩
    · rintro (⟨hx | hx, hs⟩ | ⟨hs, kv, hkv, hname, hstr⟩)
      · exact ⟨Or.inl hx, hs⟩
      · exact ⟨Or.inr (Or.inl hx), hs⟩
      · exact ⟨Or.inr (Or.inr ⟨kv, ⟨hkv, hname ▸ hstr⟩, hname⟩), hs⟩
  · rw [AddParameters_leave_FunctionDef, if_neg h]
    simp [h]

/-- C2 counterexample: a dataclass field named `"self"` defeats the
idempotence: `ArgumentsCollector` excludes `"self"` so the field counts
as missing, while `AddParameters._update_parameters` sees `"self"` among
the existing parameter names and never appends it, so recomputing the
missing set still yields the `"self"` field. -/
theorem add_parameters_not_idempotent_for_self_field :
    check_missing_parameters
        (applyAddParameters "m"
          (check_missing_parameters
            [⟨"m", ⟨[⟨"self", none, none⟩], []⟩, [Stmt.simple [SmallStmt.otherSmall]]⟩]
            [⟨"TParams", [Stmt.simple [SmallStmt.annAssignName "self" "str"]]⟩]
            "m" "TParams")
          [⟨"m", ⟨[⟨"self", none, none⟩], []⟩, [Stmt.simple [SmallStmt.otherSmall]]⟩])
        [⟨"TParams", [Stmt.simple [SmallStmt.annAssignName "self" "str"]]⟩]
        "m" "TParams"
      ≠ [] := by
  decide

/-- C2 amended: for every declaration and callable, provided the
callable occurs in the client module and no field of the declaration is
named `"self"`, applying the `AddParameters` rewrite once with the
computed missing-parameter set and recomputing the missing-parameter set
yields the empty mapping. -/
theorem add_parameters_idempotent (client : List FunctionDef) (pm : List ClassDef)
    (m t : String)
    (hex : ∃ f, f ∈ client ∧ f.name = m)
    (hself : ∀ kv ∈ DataclassFieldCollector_collect t pm, kv.1 ≠ "self") :
    check_missing_parameters
        (applyAddParameters m (check_missing_parameters client pm m t) client) pm m t
      = [] := by
  obtain ⟨f₀, hf₀, hfn⟩ := hex
  simp only [check_missing_parameters, applyAddParameters]
  rw [List.filter_eq_nil_iff]
  intro kv hkv
  simp only [Bool.not_eq_true', Bool.not_eq_false]
  rw [strMem_args_iff]
  by_cases hm : strMem kv.1 (ArgumentsCollector_collect m client) = true
  · obtain ⟨f, hf, hn, hx⟩ := (strMem_args_iff m kv.1 client).mp hm
    exact ⟨_, List.mem_map_of_mem _ hf, by rw [leave_FunctionDef_name]; exact hn,
      (argNames_leave m _ f kv.1).mpr (Or.inl hx)⟩
  · have hnself := hself kv hkv
    have hnotin : strMem kv.1
        ((f₀.params.params ++ f₀.params.kwonly_params).map Param.name) = false := by
      cases hq : strMem kv.1 ((f₀.params.params ++ f₀.params.kwonly_params).map Param.name) with
      | false => rfl
      | true =>
        exact absurd ((strMem_args_iff m kv.1 client).mpr
          ⟨f₀, hf₀, hfn, (mem_argNames_iff f₀ kv.1).mpr
            ⟨(strMem_iff _ _).mp hq, hnself⟩⟩) hm
    refine ⟨_, List.mem_map_of_mem _ hf₀, by rw [leave_FunctionDef_name]; exact hfn, ?_⟩
    refine (argNames_leave m _ f₀ kv.1).mpr (Or.inr ⟨hfn, hnself, kv, ?_, rfl, hnotin⟩)
    refine List.mem_filter.mpr ⟨hkv, ?_⟩
    cases hq : strMem kv.1 (ArgumentsCollector_collect m client) with
    | false => rfl
    | true => exact absurd hq hm

/-- C2 witness: a one-field declaration and a client method with only a
`self` parameter; after the rewrite the recomputed missing set is empty. -/
theorem add_parameters_idempotent_witness :
    check_missing_parameters
        (applyAddParameters "m"
          (check_missing_parameters
            [⟨"m", ⟨[⟨"self", none, none⟩], []⟩, [Stmt.simple [SmallStmt.otherSmall]]⟩]
            [⟨"TParams", [Stmt.simple [SmallStmt.annAssignName "top_k" "Optional[int]"]]⟩]
            "m" "TParams")
          [⟨"m", ⟨[⟨"self", none, none⟩], []⟩, [Stmt.simple [SmallStmt.otherSmall]]⟩])
        [⟨"TParams", [Stmt.simple [SmallStmt.annAssignName "top_k" "Optional[int]"]]⟩]
        "m" "TParams"
      = [] :=
  add_parameters_idempotent
    [⟨"m", ⟨[⟨"self", none, none⟩], []⟩, [Stmt.simple [SmallStmt.otherSmall]]⟩]
    [⟨"TParams", [Stmt.simple [SmallStmt.annAssignName "top_k" "Optional[int]"]]⟩]
    "m" "TParams"
    ⟨⟨"m", ⟨[⟨"self", none, none⟩], []⟩, [Stmt.simple [SmallStmt.otherSmall]]⟩,
      by decide, rfl⟩
    (by decide)

/-- C10: for a target method whose body does not begin with a
string-literal docstring, the `AddParameters` rewrite still appends the
missing keyword-only parameters to the signature (those whose names are
not already parameter names), leaves the positional parameters intact,
and leaves the method body entirely unchanged. -/
theorem add_parameters_keeps_nondocstring_body (f : FunctionDef) (missing : FieldDict)
    (hne : f.body ≠ [])
    (hnd : begins_with_docstring f.body = false) :
    (AddParameters_leave_FunctionDef f.name missing f).body = f.body
    ∧ (AddParameters_leave_FunctionDef f.name missing f).params.params = f.params.params
    ∧ (AddParameters_leave_FunctionDef f.name missing f).params.kwonly_params
        = f.params.kwonly_params
          ++ (missing.filter (fun kv =>
                !(strMem kv.1
                    ((f.params.params ++ f.params.kwonly_params).map Param.name)))).map
               (fun kv => ⟨kv.1, some kv.2.type_, some "None"⟩) := by
  have hb : AddParameters_update_docstring missing f.body = f.body := by
    rcases hfb : f.body with _ | ⟨st, tail⟩
    · rfl
    · rcases st with stmts | _
      · rcases stmts with _ | ⟨s, rest⟩
        · rfl
        · cases s with
          | exprStr s' =>
            rw [hfb] at hnd
            simp [begins_with_docstring] at hnd
          | annAssignName a b => rfl
          | importPlain => rfl
          | importFrom => rfl
          | otherSmall => rfl
      · rfl
  rw [AddParameters_leave_FunctionDef, if_pos rfl]
  exact ⟨hb, rfl, update_parameters_kwonly missing f.params⟩

/-- C10 witness: a method whose body is a single non-string statement
keeps its body and positional parameters and gains the missing
keyword-only parameter. -/
theorem add_parameters_keeps_nondocstring_body_witness :
    (AddParameters_leave_FunctionDef "m" [("x", ⟨"int", "dx"⟩)]
        ⟨"m", ⟨[⟨"self", none, none⟩], []⟩, [Stmt.simple [SmallStmt.otherSmall]]⟩).body
      = [Stmt.simple [SmallStmt.otherSmall]] :=
  (add_parameters_keeps_nondocstring_body
      ⟨"m", ⟨[⟨"self", none, none⟩], []⟩, [Stmt.simple [SmallStmt.otherSmall]]⟩
      [("x", ⟨"int", "dx"⟩)] (by decide) (by decide)).1

/-- C5 counterexample: the rendered bare type is not "the annotated type
with a surrounding Optional wrapper stripped, else unchanged":
`Dict[str, List[int]]` is not Optional-wrapped and yet loses its two
trailing brackets, and `List[Optional[int]]` is not Optional-wrapped and
yet loses its inner `Optional[` and gains the `*optional*` marker. -/
theorem update_docstring_bare_type_counterexample :
    _update_docstring_content [("x", ⟨"Dict[str, List[int]]", "d"⟩)] "Args:"
        = "Args:\n    x (`Dict[str, List[int`, ):\n        d"
    ∧ _update_docstring_content [("x", ⟨"Dict[str, List[int]]", "d"⟩)] "Args:"
        ≠ "Args:\n    x (`Dict[str, List[int]]`, ):\n        d"
    ∧ _update_docstring_content [("y", ⟨"List[Optional[int]]", "d"⟩)] "Args:"
        = "Args:\n    y (`List[int`, *optional*):\n        d" := by
  refine ⟨by decide, by decide, by decide⟩

/-- C5 amended: each inserted parameter-doc block has the shape
`<indent>name (\`<bare-type>\`, <marker>):\n<indent>    <description>`
where bare-type is the annotated type with every occurrence of the
substring `Optional[` removed and every trailing `]` stripped, and the
marker is `*optional*` exactly when `Optional[` occurs anywhere in the
annotated type (not only as a surrounding wrapper). -/
theorem update_docstring_param_block (param_name ty doc : String) :
    _update_docstring_content [(param_name, ⟨ty, doc⟩)] "Args:"
      = "Args:" ++ "\n"
        ++ ("    " ++ param_name ++ " (`"
            ++ pyRstripSet (pyReplace ty "Optional[" "") [']'] ++ "`, "
            ++ (if strContains "Optional[" ty then "*optional*" else "")
            ++ "):\n" ++ "    " ++ "    " ++ doc) := by
  rfl

theorem pyOrStr_clean_pair (a b : Option String) :
    pyOrStr (_clean_token a) (_clean_token b)
      = firstSome [_clean_token a, _clean_token b] := by
  cases ha : _clean_token a with
  | none =>
    simp only [pyOrStr, firstSome]
    cases hb : _clean_token b <;> simp [firstSome]
  | some s =>
    simp [pyOrStr, clean_token_some_ne a s ha, firstSome]

/-- C6 counterexample: with the vault unavailable, the primary variable
set to the whitespace-only string `" "`, the alias holding `"X"` and the
token file containing `"Y"`, the first non-absent candidate in the
claimed order is the alias value `"X"`; the code instead lets the
non-empty primary value win the `or`, cleans it to nothing, and falls
through to the file, returning `"Y"`. -/
theorem get_token_priority_counterexample :
    get_token ⟨none, some " ", some "X", some "Y"⟩ = some "Y"
    ∧ spec_priority_resolution ⟨none, some " ", some "X", some "Y"⟩ = some "X"
    ∧ get_token ⟨none, some " ", some "X", some "Y"⟩
        ≠ spec_priority_resolution ⟨none, some " ", some "X", some "Y"⟩ := by
  refine ⟨by decide, by decide, by decide⟩

/-- C6 amended: resolution tries the vault, then the primary variable,
then the alias, then the token file, returning the first candidate that
is non-empty after normalization — provided the vault outcome is absent
or already normalized (as the colab path guarantees) and the primary
variable is unset, empty, or normalizes to a non-empty token.  (When the
primary variable holds a non-empty string that normalizes to nothing,
the alias is skipped and resolution falls through to the file.)  In
particular, with the vault unavailable, the primary unset, the alias
`"X"` and the file `"Y"`, the resolved token is `"X"`. -/
theorem get_token_priority (e : AuthEnv)
    (hvault : e.colab_secret = none
      ∨ ∃ s, e.colab_secret = some s ∧ _clean_token (some s) = some s)
    (hprimary : e.hf_token_env = none ∨ e.hf_token_env = some ""
      ∨ ∃ s, e.hf_token_env = some s ∧ _clean_token (some s) ≠ none) :
    get_token e = spec_priority_resolution e
    ∧ get_token ⟨none, none, some "X", some "Y"⟩ = some "X" := by
  refine ⟨?_, by decide⟩
  have hfile := get_token_from_file_eq e
  rcases hvault with hv | ⟨s₀, hv, hv'⟩
  · rcases hprimary with hp | hp | ⟨s, hp, hp'⟩
    · simp only [get_token, spec_priority_resolution, _get_token_from_environment,
        hfile, hv, hp, _clean_token, pyOrStr, firstSome]
      exact pyOrStr_clean_pair e.hub_token_env e.token_file
    · simp only [get_token, spec_priority_resolution, _get_token_from_environment,
        hfile, hv, hp, _clean_token, pyOrStr, firstSome, if_pos]
      exact pyOrStr_clean_pair e.hub_token_env e.token_file
    · have hs : s ≠ "" := by
        rintro rfl
        exact hp' rfl
      obtain ⟨tk, htk⟩ := Option.ne_none_iff_exists'.mp hp'
      simp only [get_token, spec_priority_resolution, _get_token_from_environment,
        hfile, hv, hp, firstSome, pyOrStr, if_neg hs, htk,
        clean_token_some_ne _ tk htk, if_neg (clean_token_some_ne _ tk htk)]
      simp
  · have hs₀ : s₀ ≠ "" := clean_token_some_ne _ s₀ hv'
    simp only [get_token, spec_priority_resolution, hv, hv', firstSome, pyOrStr,
      if_neg hs₀]

theorem run_colab_calls_checked (env : ColabEnv) :
    ∀ (n : Nat) (st : ColabState), st.checked = true →
      run_colab_calls env n st = (st, 0)
  | 0, _, _ => rfl
  | n + 1, st, h => by
    simp only [run_colab_calls, _get_token_from_google_colab, h]
    by_cases hg : (!env.is_google_colab || env.is_colab_enterprise) = true
    · simp [hg, run_colab_calls_checked env n st h]
    · simp [hg, run_colab_calls_checked env n st h]

theorem run_colab_calls_not_colab (env : ColabEnv)
    (hg : (!env.is_google_colab || env.is_colab_enterprise) = true) :
    ∀ (n : Nat) (st : ColabState), run_colab_calls env n st = (st, 0)
  | 0, _ => rfl
  | n + 1, st => by
    simp [run_colab_calls, _get_token_from_google_colab, hg,
      run_colab_calls_not_colab env hg n st]

theorem run_colab_calls_no_import (env : ColabEnv)
    (hg : (!env.is_google_colab || env.is_colab_enterprise) = false)
    (hi : env.can_import_userdata = false) :
    ∀ (n : Nat) (st : ColabState), st.checked = false →
      run_colab_calls env n st = (st, 0)
  | 0, _, _ => rfl
  | n + 1, st, h => by
    simp [run_colab_calls, _get_token_from_google_colab, hg, hi, h,
      run_colab_calls_no_import env hg hi n st h]

/-- C9: across every sequence of calls to
`_get_token_from_google_colab` within one process (each call is atomic
because the body holds `_GOOGLE_COLAB_SECRET_LOCK`), the vault is
queried at most once starting from the initial module state; and once
the checked flag is set, a call never queries the vault again and — in a
Colab (non-enterprise) runtime, the only way the flag can have been set —
returns the cached outcome (including a cached null outcome) unchanged. -/
theorem colab_vault_queried_at_most_once (env : ColabEnv) (n : Nat) :
    (run_colab_calls env n ⟨false, none⟩).2 ≤ 1
    ∧ (∀ st : ColabState, st.checked = true →
        (_get_token_from_google_colab env st).2.2 = false
        ∧ (env.is_google_colab = true → env.is_colab_enterprise = false →
            _get_token_from_google_colab env st = (st.secret, st, false))) := by
  constructor
  · by_cases hg : (!env.is_google_colab || env.is_colab_enterprise) = true
    · simp [run_colab_calls_not_colab env hg n _]
    · rw [Bool.not_eq_true] at hg
      by_cases hi : env.can_import_userdata = true
      · cases n with
        | zero => simp [run_colab_calls]
        | succ n =>
          simp only [run_colab_calls, _get_token_from_google_colab, hg, hi]
          rw [run_colab_calls_checked env n _ rfl]
          simp
      · rw [Bool.not_eq_true] at hi
        simp [run_colab_calls_no_import env hg hi n ⟨false, none⟩ rfl]
  · intro st hst
    constructor
    · simp only [_get_token_from_google_colab, hst]
      by_cases hg : (!env.is_google_colab || env.is_colab_enterprise) = true
      · simp [hg]
      · simp [hg]
    · intro h1 h2
      simp [_get_token_from_google_colab, hst, h1, h2]

/-- C9 witness: in a Colab runtime with an importable vault, five
successive calls query the vault once in total, and a call made in a
checked state returns the cached token without querying. -/
theorem colab_vault_queried_at_most_once_witness :
    (run_colab_calls ⟨true, false, true, VaultOutcome.token "tok"⟩ 5 ⟨false, none⟩).2 ≤ 1
    ∧ _get_token_from_google_colab ⟨true, false, true, VaultOutcome.token "tok"⟩
        ⟨true, some "cached"⟩
      = (some "cached", ⟨true, some "cached"⟩, false) :=
  ⟨(colab_vault_queried_at_most_once ⟨true, false, true, VaultOutcome.token "tok"⟩ 5).1,
    ((colab_vault_queried_at_most_once ⟨true, false, true, VaultOutcome.token "tok"⟩ 5).2
        ⟨true, some "cached"⟩ rfl).2 rfl rfl⟩

/-- C6 witness: the claimed scenario — vault unavailable, primary unset,
alias `"X"`, file `"Y"` — satisfies the side conditions, the code agrees
with the priority description there, and the resolved token is `"X"`. -/
theorem get_token_priority_witness :
    get_token ⟨none, none, some "X", some "Y"⟩
        = spec_priority_resolution ⟨none, none, some "X", some "Y"⟩
    ∧ get_token ⟨none, none, some "X", some "Y"⟩ = some "X" :=
  ⟨(get_token_priority ⟨none, none, some "X", some "Y"⟩ (Or.inl rfl) (Or.inl rfl)).1,
    (get_token_priority ⟨none, none, some "X", some "Y"⟩ (Or.inl rfl) (Or.inl rfl)).2⟩
